import Mathlib

/-!
Verification of the IR protocol toolkit (cir / irp crates) against its
natural-language specification.

Shallow embedding of:
  * `irp/src/graphviz.rs` — the debug dot-file rendering (`graphviz`,
    `no_to_name`);
  * `cir/src/bin/commands/config.rs` — the `Options` construction of the
    `config`, `load_keymap` and `load_lircd` paths, and the lircd key-name
    normalisation;
  * `src/bin/commands/decode.rs` — the raw-receiver token translation of the
    decode loop.

The NFA data model (`Vertex`, `Edge`, `Action`, `Vartable`), the irp crate's
`Options` record, and the lirc receiver token type are declared outside the
embedded sources; they are modelled from the specification where so noted.
Expression trees are represented by their rendered display text, which is all
the embedded rendering code consumes of them.
-/

namespace IrSpec

/-- Modelled from the spec (§3, §9): `Vartable` (irp crate, not under src/) is a
mapping from variable name to (value, bit-width), stored as a flat association
list. -/
structure Vartable where
  vars : List (String × Int × Nat)
deriving DecidableEq

/-- Modelled from the spec (§3): a vertex action of the NFA (`build_nfa`, not
under src/): `Set(var, expr)`, `AssertEq(lhs, rhs)`, `Done(event, bindings)`.
Expressions appear only through their display text. -/
inductive Action where
  | Set (var : String) (expr : String)
  | AssertEq (left : String) (right : String)
  | Done (event : String) (res : List String)
deriving DecidableEq

/-- Modelled from the spec (§3): the NFA edge variants (`build_nfa`, not under
src/). Durations are non-negative integers of microseconds; destinations are
vertex indices. -/
inductive Edge where
  | Flash (length : Nat) (complete : Bool) (dest : Nat)
  | Gap (length : Nat) (complete : Bool) (dest : Nat)
  | Branch (dest : Nat)
  | BranchCond (expr : String) (yes : Nat) (no : Nat)
  | MayBranchCond (expr : String) (dest : Nat)
deriving DecidableEq

/-- Modelled from the spec (§3): an NFA vertex carries an ordered action list
and an ordered outbound edge list. -/
structure Vertex where
  actions : List Action
  edges : List Edge
deriving DecidableEq

/-- `InfraredData` (spec §3): `Flash(μs)`, `Gap(μs)`, `Reset`. -/
inductive InfraredData where
  | Flash (us : Nat)
  | Gap (us : Nat)
  | Reset
deriving DecidableEq

/-- Modelled from the spec (§6): the raw receiver delivers tokens tagged
pulse / space / timeout / overflow, each carrying a duration value; a
carrier-frequency report is the remaining token kind a learning-mode receiver
can deliver. The lirc module defining the tag predicates is not under src/. -/
inductive RawToken where
  | pulse (v : Nat)
  | space (v : Nat)
  | timeout (v : Nat)
  | overflow (v : Nat)
  | frequency (v : Nat)
deriving DecidableEq

def RawToken.is_pulse : RawToken → Bool
  | .pulse _ => true
  | _ => false

def RawToken.is_space : RawToken → Bool
  | .space _ => true
  | _ => false

def RawToken.is_timeout : RawToken → Bool
  | .timeout _ => true
  | _ => false

def RawToken.is_overflow : RawToken → Bool
  | .overflow _ => true
  | _ => false

def RawToken.value : RawToken → Nat
  | .pulse v | .space v | .timeout v | .overflow v | .frequency v => v

/-- The token translation of the decode loop, `decode.rs` lines 208–217:
pulse ↦ `Flash(value)`; space or timeout ↦ `Gap(value)`; overflow ↦ `Reset`;
anything else is skipped (`continue`). -/
def decode_token (raw : RawToken) : Option InfraredData :=
  if raw.is_pulse then some (.Flash raw.value)
  else if raw.is_space || raw.is_timeout then some (.Gap raw.value)
  else if raw.is_overflow then some .Reset
  else none

/-- The sequence of `InfraredData` values the decode loop presents to the
matchers for a batch of raw tokens (`decode.rs` lines 208–248): each token is
translated by `decode_token`, and a token translating to `none` is skipped
before any matcher sees it. -/
def decode_loop_inputs (rawbuf : List RawToken) : List InfraredData :=
  rawbuf.filterMap decode_token

/-- The irp crate's compilation options (spec §3): timing tolerances, gap
cutoff, and debug toggles. -/
structure Options where
  name : String
  max_gap : Nat
  aeps : Nat
  eps : Nat
  nfa : Bool
  dfa : Bool
  llvm_ir : Bool
  assembly : Bool
  object : Bool
  repeat_mask : Nat
deriving DecidableEq

/-- Modelled from the spec (§5): `Options::default()` (irp crate, not under
src/). The spec fixes the tolerance defaults at 3% and 100μs; the remaining
fields default to empty/zero/off. -/
def defaultOpts : Options :=
  { name := "", max_gap := 0, aeps := 100, eps := 3, nfa := false, dfa := false,
    llvm_ir := false, assembly := false, object := false, repeat_mask := 0 }

/-- The caller-side decode options consumed by `config.rs`: optional timing
tolerances and the NFA/DFA dot-dump toggles. -/
structure DecodeOptions where
  save_nfa : Bool
  save_dfa : Bool
  aeps : Option Nat
  eps : Option Nat
deriving DecidableEq

/-- The caller-side BPF options consumed by `config.rs`: the assembly/object
debug-dump toggles. -/
structure BpfDecodeOptions where
  save_llvm_ir : Bool
  save_assembly : Bool
  save_object : Bool
deriving DecidableEq

/-- The `max_gap` computed by the IRP `config` path, `config.rs` lines 147 and
181–193: start from 100000; an explicit `--timeout` wins; otherwise a device
timeout `t` gives `t * 9 / 10` (u32 arithmetic, hence the reduction mod 2^32
after the multiply). -/
def config_max_gap (cfg_timeout dev_timeout : Option Nat) : Nat :=
  match cfg_timeout with
  | some t => t
  | none =>
    match dev_timeout with
    | some t => t * 9 % 4294967296 / 10
    | none => 100000

/-- The `Options` record built by the IRP `config` path, `config.rs` lines
195–208. -/
def config_options (cfg_timeout dev_timeout : Option Nat) (opts : DecodeOptions)
    (bpf : BpfDecodeOptions) : Options :=
  { defaultOpts with
    name := "irp",
    max_gap := config_max_gap cfg_timeout dev_timeout,
    nfa := opts.save_nfa,
    dfa := opts.save_dfa,
    aeps := opts.aeps.getD 100,
    eps := opts.eps.getD 3,
    llvm_ir := bpf.save_llvm_ir,
    assembly := bpf.save_assembly,
    object := bpf.save_object }

/-- The `max_gap` computed by `load_keymap`, `config.rs` lines 437–449: 100000
unless the device reports a timeout `t`, in which case `t * 9 / 10` (u32). -/
def load_keymap_max_gap (dev_timeout : Option Nat) : Nat :=
  match dev_timeout with
  | some t => t * 9 % 4294967296 / 10
  | none => 100000

/-- The `Options` record built by `load_keymap`, `config.rs` lines 451–468. -/
def load_keymap_options (name : String) (dev_timeout : Option Nat)
    (dec : Option DecodeOptions) (bpfo : Option BpfDecodeOptions) : Options :=
  let o := { defaultOpts with name := name, max_gap := load_keymap_max_gap dev_timeout }
  let o := match dec with
    | some d =>
      { o with nfa := d.save_nfa, dfa := d.save_dfa,
               aeps := d.aeps.getD 100, eps := d.eps.getD 3 }
    | none => o
  match bpfo with
  | some b => { o with llvm_ir := b.save_llvm_ir, assembly := b.save_assembly,
                       object := b.save_object }
  | none => o

/-- The `max_gap` computed by `load_lircd`, `config.rs` lines 541–553. -/
def load_lircd_max_gap (dev_timeout : Option Nat) : Nat :=
  match dev_timeout with
  | some t => t * 9 % 4294967296 / 10
  | none => 100000

/-- Modelled from the spec: `Remote::default_options` (lircd_conf, not under
src/) builds the remote's `Options` with the supplied `max_gap`; the timing
tolerances default per §5 when the caller leaves them unspecified. -/
def remote_default_options (name : String) (aeps eps : Option Nat) (max_gap : Nat) : Options :=
  { defaultOpts with name := name, max_gap := max_gap,
                     aeps := aeps.getD 100, eps := eps.getD 3 }

/-- The `Options` record built by `load_lircd`, `config.rs` lines 541–572. -/
def load_lircd_options (name : String) (dev_timeout : Option Nat)
    (dec : Option DecodeOptions) (bpfo : Option BpfDecodeOptions)
    (repeat_mask : Nat) : Options :=
  let o := remote_default_options name (dec.bind fun d => d.aeps)
    (dec.bind fun d => d.eps) (load_lircd_max_gap dev_timeout)
  let o := { o with repeat_mask := repeat_mask }
  let o := match dec with
    | some d => { o with nfa := d.save_nfa, dfa := d.save_dfa }
    | none => o
  match bpfo with
  | some b => { o with llvm_ir := b.save_llvm_ir, assembly := b.save_assembly,
                       object := b.save_object }
  | none => o

/-- The key-name normalisation of `load_lircd`, `config.rs` lines 611–615:
uppercase the code's name, then prepend `KEY_` when the uppercased name does
not already start with it. -/
def load_lircd_key_name (codeName : String) : String :=
  let name := codeName.toUpper
  if name.startsWith "KEY_" then name else "KEY_" ++ name

/-- The registration a `load_lircd` code entry requests from the external
keycode registry, `config.rs` lines 611–640: the normalised name is looked up
(`KeyCode::from_str`); failure skips the entry (`continue`), success registers
`(keycode, scancode)`. -/
def update_scancode_request (lookup : String → Option Nat) (codeName : String)
    (scancode : Nat) : Option (Nat × Nat) :=
  match lookup (load_lircd_key_name codeName) with
  | some key => some (key, scancode)
  | none => none

/-- The claim's reading of the key-name normalisation: convert to uppercase,
and prepend `KEY_` exactly when the uppercased name does not already start
with `KEY_`. -/
def claimKeyName (s : String) : String :=
  if s.toUpper.startsWith "KEY_" then s.toUpper else "KEY_" ++ s.toUpper

/-- `no_to_name` from `graphviz.rs` lines 147–161: the base-26 short
identifier of a vertex position. The source's insert-at-front loop over the
least-significant digit is written here as structural recursion on the
quotient; each digit is the character of code 65 + remainder. -/
def no_to_name (no : Nat) : String :=
  if no / 26 = 0 then String.mk [Char.ofNat (65 + no % 26)]
  else no_to_name (no / 26) ++ String.mk [Char.ofNat (65 + no % 26)]
termination_by no
decreasing_by
  have hno : no ≠ 0 := by
    intro h0
    subst h0
    simp_all
  exact Nat.div_lt_self (Nat.pos_of_ne_zero hno) (by omega)

/-- Is an action a `Done`? (`matches!(a, Action::Done(..))`). -/
def isDone : Action → Bool
  | .Done _ _ => true
  | _ => false

/-- The node name of the vertex at enumeration index `no` when `k` names have
been produced so far (`graphviz.rs` lines 18–22): `done (no)` when some action
is a `Done`, else `no_to_name(k)` followed by ` (no)`. -/
def mkVertName (no k : Nat) (v : Vertex) : String :=
  if v.actions.any isDone then "done (" ++ toString no ++ ")"
  else no_to_name k ++ " (" ++ toString no ++ ")"

/-- The label text of one action (`graphviz.rs` lines 24–32). -/
def actionLabel : Action → String
  | .Set var expr => var ++ " = " ++ expr
  | .AssertEq left right => "assert " ++ left ++ " = " ++ right
  | .Done event res => event ++ " (" ++ String.intercalate ", " res ++ ")"

/-- The extra label contributed by the first `BranchCond` edge, if any
(`graphviz.rs` lines 34–40). -/
def condLabel (edges : List Edge) : List String :=
  match edges.find? fun e => match e with | .BranchCond _ _ _ => true | _ => false with
  | some (.BranchCond expr _ _) => ["cond: " ++ expr]
  | _ => []

/-- The extra label contributed by the first `MayBranchCond` edge, if any
(`graphviz.rs` lines 42–48). -/
def mayCondLabel (edges : List Edge) : List String :=
  match edges.find? fun e => match e with | .MayBranchCond _ _ => true | _ => false with
  | some (.MayBranchCond expr _) => ["may cond: " ++ expr]
  | _ => []

/-- The first state annotation for vertex index `no`
(`states.iter().find(|(node, _)| *node == no)`). -/
def stateEntry (no : Nat) (states : List (Nat × Vartable)) : Option (Nat × Vartable) :=
  states.find? fun p => p.1 == no

/-- The `state: name=value, ...` label for an annotated vertex
(`graphviz.rs` lines 50–57). -/
def stateLabel (vars : Vartable) : String :=
  "state: " ++ String.intercalate ", "
    (vars.vars.map fun p => p.1 ++ "=" ++ toString p.2.1)

/-- The full label list of a vertex (`graphviz.rs` lines 24–57): action
labels, then the cond and may-cond labels, then the state annotation. -/
def vertexLabels (v : Vertex) (no : Nat) (states : List (Nat × Vartable)) : List String :=
  v.actions.map actionLabel ++ condLabel v.edges ++ mayCondLabel v.edges ++
    (match stateEntry no states with
     | some (_, vars) => [stateLabel vars]
     | none => [])

/-- The color attribute of a vertex (`graphviz.rs` lines 50–62): ` [color=red]`
exactly when the vertex index has a state annotation. -/
def vertexColor (no : Nat) (states : List (Nat × Vartable)) : String :=
  match stateEntry no states with
  | some _ => " [color=red]"
  | none => ""

/-- The label line of a named node (`graphviz.rs` lines 65–73, without the
trailing color attribute). -/
def labelLine (name : String) (labels : List String) : String :=
  "\t\"" ++ name ++ "\" [label=\"" ++ name ++ "\\n" ++
    String.intercalate "\\n" labels ++ "\"]"

/-- The node line(s) written for one vertex (`graphviz.rs` lines 64–76): a
label line with the color appended when there are labels, else a bare colored
node when there is a color, else nothing. -/
def vertexLines (name : String) (labels : List String) (color : String) : List String :=
  if !labels.isEmpty then [labelLine name labels ++ color]
  else if !(color == "") then ["\t\"" ++ name ++ "\"" ++ color]
  else []

/-- The first loop of `graphviz` (`graphviz.rs` lines 17–79): walks the
vertices carrying the enumeration index `no` and the `vert_names` accumulator,
returning the final name table and the node lines in order. -/
def vertLoop (states : List (Nat × Vartable)) :
    Nat → List Vertex → List String → List String × List String
  | _, [], acc => (acc, [])
  | no, v :: rest, acc =>
    let name := mkVertName no acc.length v
    let lines := vertexLines name (vertexLabels v no states) (vertexColor no states)
    let r := vertLoop states (no + 1) rest (acc ++ [name])
    (r.1, lines ++ r.2)

/-- The dot lines written for one edge out of vertex `i` (`graphviz.rs` lines
82–140). Out-of-range indices render as the empty name (the Rust code would
panic; the claims only concern in-range destinations). -/
def edgeLines (vn : List String) (i : Nat) : Edge → List String
  | .Flash length complete dest =>
    ["\t\"" ++ vn.getD i "" ++ "\" -> \"" ++ vn.getD dest "" ++
      "\" [label=\"flash " ++ toString length ++ " " ++
      (if complete then " complete" else "") ++ "\"]"]
  | .Gap length complete dest =>
    ["\t\"" ++ vn.getD i "" ++ "\" -> \"" ++ vn.getD dest "" ++
      "\" [label=\"gap " ++ toString length ++ " " ++
      (if complete then " complete" else "") ++ "\"]"]
  | .BranchCond _ yes no =>
    ["\t\"" ++ vn.getD i "" ++ "\" -> \"" ++ vn.getD yes "" ++
      "\" [label=\"cond: true\"]",
     "\t\"" ++ vn.getD i "" ++ "\" -> \"" ++ vn.getD no "" ++
      "\" [label=\"cond: false\"]"]
  | .MayBranchCond _ dest =>
    ["\t\"" ++ vn.getD i "" ++ "\" -> \"" ++ vn.getD dest "" ++
      "\" [label=\"may branch\"]"]
  | .Branch dest =>
    ["\t\"" ++ vn.getD i "" ++ "\" -> \"" ++ vn.getD dest "" ++ "\""]

/-- The second loop of `graphviz` (`graphviz.rs` lines 81–142): the edge lines
of every vertex, in order. -/
def edgeLoop (vn : List String) : Nat → List Vertex → List String
  | _, [] => []
  | i, v :: rest => v.edges.flatMap (edgeLines vn i) ++ edgeLoop vn (i + 1) rest

/-- The full text (as lines) of the dot file `graphviz` writes
(`graphviz.rs` lines 13–144): header, node lines, edge lines, footer. -/
def graphvizLines (verts : List Vertex) (gname : String)
    (states : List (Nat × Vartable)) : List String :=
  let r := vertLoop states 0 verts []
  ("strict digraph " ++ gname ++ " \x7b") :: (r.2 ++ edgeLoop r.1 0 verts ++ ["\x7d"])

/-- `graphviz` itself (`graphviz.rs` lines 9–145). The file creation
(`File::create(path).expect("create file")`) is the fallible step: when it
fails the Rust code panics, modelled as `Except.error "create file"`;
otherwise the dot lines are produced. -/
def graphviz (verts : List Vertex) (gname : String)
    (states : List (Nat × Vartable)) (create_ok : Bool) :
    Except String (List String) :=
  if create_ok then Except.ok (graphvizLines verts gname states)
  else Except.error "create file"

/-- The claim's reading of an edge arc: source, destination, optional label. -/
def arc (a b : String) : Option String → String
  | some l => "\t\"" ++ a ++ "\" -> \"" ++ b ++ "\" [label=\"" ++ l ++ "\"]"
  | none => "\t\"" ++ a ++ "\" -> \"" ++ b ++ "\""

/-- The claim's reading of the labelled arcs produced per edge variant:
`flash L [complete]`, `gap L [complete]`, the two `cond:` arcs of a
`BranchCond`, `may branch`, and an unlabelled arc for `Branch`. -/
def edgeArcs : Edge → List (Option String × Nat)
  | .Flash length complete dest =>
    [(some ("flash " ++ toString length ++ " " ++
      (if complete then " complete" else "")), dest)]
  | .Gap length complete dest =>
    [(some ("gap " ++ toString length ++ " " ++
      (if complete then " complete" else "")), dest)]
  | .BranchCond _ yes no => [(some "cond: true", yes), (some "cond: false", no)]
  | .MayBranchCond _ dest => [(some "may branch", dest)]
  | .Branch dest => [(none, dest)]

/-- The claim's reading of the name table: the vertex at enumeration index
`no`, with `k` names already produced, is named by `mkVertName`. -/
def specNames : Nat → Nat → List Vertex → List String
  | _, _, [] => []
  | no, k, v :: rest => mkVertName no k v :: specNames (no + 1) (k + 1) rest

/-- The uppercase alphabet the short identifiers draw from. -/
def upperAZ : String := "ABCDEFGHIJKLMNOPQRSTUVWXYZ"

/-- C2: in the `config` and `load_keymap` paths, unspecified timing tolerances
default to `aeps = 100` and `eps = 3`; specified tolerances are used
unchanged. (When `load_keymap` receives no decode-options record at all, the
spec-modelled `Options` default supplies the same values.) -/
theorem c2_tolerance_defaults (ct dt : Option Nat) (o : DecodeOptions)
    (b : BpfDecodeOptions) (nm : String) (bpfo : Option BpfDecodeOptions)
    (a e : Nat) :
    (config_options ct dt { o with aeps := none, eps := none } b).aeps = 100 ∧
    (config_options ct dt { o with aeps := none, eps := none } b).eps = 3 ∧
    (config_options ct dt { o with aeps := some a, eps := some e } b).aeps = a ∧
    (config_options ct dt { o with aeps := some a, eps := some e } b).eps = e ∧
    (load_keymap_options nm dt (some { o with aeps := none, eps := none }) bpfo).aeps = 100 ∧
    (load_keymap_options nm dt (some { o with aeps := none, eps := none }) bpfo).eps = 3 ∧
    (load_keymap_options nm dt (some { o with aeps := some a, eps := some e }) bpfo).aeps = a ∧
    (load_keymap_options nm dt (some { o with aeps := some a, eps := some e }) bpfo).eps = e ∧
    (load_keymap_options nm dt none bpfo).aeps = 100 ∧
    (load_keymap_options nm dt none bpfo).eps = 3 := by
  cases bpfo <;>
    simp [config_options, load_keymap_options, defaultOpts, Option.getD]

/-- C5: the keycode name a lircd.conf code entry presents to the external
keycode registry is the code's name uppercased, with `KEY_` prepended exactly
when the uppercased name does not already start with `KEY_`; a name the
registry cannot resolve is skipped (nothing is registered). -/
theorem c5_key_name_normalisation (lookup : String → Option Nat) (s : String)
    (sc : Nat) :
    load_lircd_key_name s = claimKeyName s ∧
    update_scancode_request lookup s sc
      = (lookup (claimKeyName s)).map fun k => (k, sc) := by
  refine ⟨rfl, ?_⟩
  unfold update_scancode_request claimKeyName load_lircd_key_name
  cases lookup (if s.toUpper.startsWith "KEY_" then s.toUpper else "KEY_" ++ s.toUpper) <;>
    rfl

/-- C8: with no caller timeout and no device timeout, `max_gap` is 100000 in
all three paths; a device-reported timeout `t` gives `t * 9 / 10`; in the IRP
`config` path an explicit caller timeout overrides both. -/
theorem c8_max_gap_policy (T t : Nat) (dt : Option Nat) (o : DecodeOptions)
    (b : BpfDecodeOptions) (nm : String) (dec : Option DecodeOptions)
    (bpfo : Option BpfDecodeOptions) (rm : Nat)
    (hT : T * 9 < 4294967296) :
    (config_options none none o b).max_gap = 100000 ∧
    (config_options none (some T) o b).max_gap = T * 9 / 10 ∧
    (config_options (some t) dt o b).max_gap = t ∧
    (load_keymap_options nm none dec bpfo).max_gap = 100000 ∧
    (load_keymap_options nm (some T) dec bpfo).max_gap = T * 9 / 10 ∧
    (load_lircd_options nm none dec bpfo rm).max_gap = 100000 ∧
    (load_lircd_options nm (some T) dec bpfo rm).max_gap = T * 9 / 10 := by
  have hmod : T * 9 % 4294967296 = T * 9 := Nat.mod_eq_of_lt hT
  cases dec <;> cases bpfo <;>
    simp [config_options, config_max_gap, load_keymap_options, load_keymap_max_gap,
      load_lircd_options, load_lircd_max_gap, remote_default_options, defaultOpts, hmod]

/-- Witness for C8 at a concrete device timeout of 120000μs. -/
theorem c8_max_gap_policy_witness :
    (config_options none (some 120000) ⟨false, false, none, none⟩
      ⟨false, false, false⟩).max_gap = 120000 * 9 / 10 :=
  (c8_max_gap_policy 120000 5 none ⟨false, false, none, none⟩
    ⟨false, false, false⟩ "x" none none 0 (by norm_num)).2.1

/-- C9: the decode loop translates a pulse token of value `v` to `Flash v`, a
space or timeout token to `Gap v`, an overflow token to `Reset`, and skips any
other token kind entirely, so it is never presented to a matcher. -/
theorem c9_token_translation (v : Nat) (xs ys : List RawToken) :
    decode_token (.pulse v) = some (.Flash v) ∧
    decode_token (.space v) = some (.Gap v) ∧
    decode_token (.timeout v) = some (.Gap v) ∧
    decode_token (.overflow v) = some .Reset ∧
    decode_token (.frequency v) = none ∧
    decode_loop_inputs (xs ++ RawToken.frequency v :: ys)
      = decode_loop_inputs (xs ++ ys) := by
  refine ⟨rfl, rfl, rfl, rfl, rfl, ?_⟩
  simp [decode_loop_inputs, List.filterMap_append]
  rfl

/-- Appending strings concatenates their character data. -/
theorem str_data_append (a b : String) : (a ++ b).data = a.data ++ b.data := rfl

/-- The character data of a packed string. -/
theorem str_data_mk (l : List Char) : (String.mk l).data = l := rfl

/-- C1: the claim that a dot-dump failure leaves the rendering step returning
normally is false: when the file cannot be created, `graphviz` panics
(`expect("create file")`) instead of returning. -/
theorem c1_counterexample :
    graphviz [] "nfa" [] false = Except.error "create file" := rfl

/-- C1 (amended): a failure to create the dot file makes `graphviz` panic with
`create file`, aborting the compile; only when creation succeeds does it
return the rendered dot text. -/
theorem c1_create_failure_panics (verts : List Vertex) (gname : String)
    (states : List (Nat × Vartable)) :
    graphviz verts gname states false = Except.error "create file" ∧
    graphviz verts gname states true
      = Except.ok (graphvizLines verts gname states) :=
  ⟨rfl, rfl⟩

/-- The name table built by the first rendering loop is the spec-level name
list: the accumulator only contributes its length. -/
theorem vertLoop_fst (states : List (Nat × Vartable)) :
    ∀ (verts : List Vertex) (no : Nat) (acc : List String),
    (vertLoop states no verts acc).1 = acc ++ specNames no acc.length verts := by
  intro verts
  induction verts with
  | nil => intro no acc; simp [vertLoop, specNames]
  | cons v rest ih =>
    intro no acc
    rw [vertLoop, ih]
    simp [specNames, List.append_assoc]

/-- Indexing the spec-level name list. -/
theorem specNames_get (l : List Vertex) :
    ∀ (no k n : Nat),
    (specNames no k l)[n]? = l[n]?.map fun v => mkVertName (no + n) (k + n) v := by
  induction l with
  | nil => intro no k n; simp [specNames]
  | cons v rest ih =>
    intro no k n
    cases n with
    | zero => simp [specNames]
    | succ m =>
      rw [specNames]
      simp only [List.getElem?_cons_succ]
      rw [ih (no + 1) (k + 1) m,
        show no + 1 + m = no + (m + 1) by omega,
        show k + 1 + m = k + (m + 1) by omega]

/-- C3: in the rendered name table, the vertex at index `n` is named
`done (n)` when one of its actions is a `Done`, and otherwise by the base-26
identifier of its position followed by ` (n)`. -/
theorem c3_vertex_naming (states : List (Nat × Vartable)) (verts : List Vertex)
    (n : Nat) (v : Vertex) (h : verts[n]? = some v) :
    (vertLoop states 0 verts []).1[n]? =
      some (if v.actions.any isDone then "done (" ++ toString n ++ ")"
            else no_to_name n ++ " (" ++ toString n ++ ")") := by
  rw [vertLoop_fst]
  simp only [List.nil_append, List.length_nil]
  rw [specNames_get, h]
  simp [mkVertName]

/-- Witness for C3: in a two-vertex list whose second vertex carries a `Done`,
that vertex is named `done (1)`. -/
theorem c3_vertex_naming_witness :
    (vertLoop [] 0 [⟨[], []⟩, ⟨[Action.Done "x" []], []⟩] []).1[1]? =
      some (if (Vertex.mk [Action.Done "x" []] []).actions.any isDone
            then "done (" ++ toString 1 ++ ")"
            else no_to_name 1 ++ " (" ++ toString 1 ++ ")") :=
  c3_vertex_naming [] _ 1 _ rfl

/-- C4: the dot lines emitted for an edge are exactly the arcs of the claim's
per-variant description: `flash L [complete]`, `gap L [complete]`, the
`cond: true` / `cond: false` pair for `BranchCond`, `may branch` for
`MayBranchCond`, and an unlabelled arc for `Branch`. -/
theorem c4_edge_rendering (vn : List String) (i : Nat) (e : Edge) :
    edgeLines vn i e
      = (edgeArcs e).map fun p => arc (vn.getD i "") (vn.getD p.2 "") p.1 := by
  cases e with
  | Flash length complete dest =>
    simp only [edgeLines, edgeArcs, List.map, arc]
    congr 1
    apply String.ext
    simp [str_data_append, List.append_assoc, List.cons_append]
  | Gap length complete dest =>
    simp only [edgeLines, edgeArcs, List.map, arc]
    congr 1
    apply String.ext
    simp [str_data_append, List.append_assoc, List.cons_append]
  | BranchCond expr yes no =>
    simp only [edgeLines, edgeArcs, List.map, arc]
    congr 1
    · apply String.ext
      simp [str_data_append, List.append_assoc, List.cons_append]
    · congr 1
      apply String.ext
      simp [str_data_append, List.append_assoc, List.cons_append]
  | MayBranchCond expr dest =>
    simp only [edgeLines, edgeArcs, List.map, arc]
    congr 1
    apply String.ext
    simp [str_data_append, List.append_assoc, List.cons_append]
  | Branch dest =>
    simp only [edgeLines, edgeArcs, List.map, arc]

/-- C6: a vertex whose index carries a state annotation is rendered with the
` [color=red]` attribute and its label list contains the
`state: name=value, ...` binding rendering; a vertex without an annotation
gets the empty color attribute, its node line exactly the plain label line. -/
theorem c6_state_color (no : Nat) (name : String) (v : Vertex)
    (states : List (Nat × Vartable)) :
    (∀ m vars, stateEntry no states = some (m, vars) →
        vertexColor no states = " [color=red]" ∧
        stateLabel vars ∈ vertexLabels v no states ∧
        vertexLines name (vertexLabels v no states) (vertexColor no states)
          = [labelLine name (vertexLabels v no states) ++ " [color=red]"]) ∧
    (stateEntry no states = none →
        vertexColor no states = "" ∧
        vertexLines name (vertexLabels v no states) (vertexColor no states)
          = if (vertexLabels v no states).isEmpty then []
            else [labelLine name (vertexLabels v no states)]) := by
  constructor
  · intro m vars h
    have hc : vertexColor no states = " [color=red]" := by simp [vertexColor, h]
    have hl : vertexLabels v no states
        = (v.actions.map actionLabel ++ condLabel v.edges ++ mayCondLabel v.edges)
          ++ [stateLabel vars] := by
      simp [vertexLabels, h, List.append_assoc]
    refine ⟨hc, ?_, ?_⟩
    · rw [hl]
      simp
    · rw [hc, vertexLines, hl]
      simp
  · intro h
    have hc : vertexColor no states = "" := by simp [vertexColor, h]
    refine ⟨hc, ?_⟩
    rw [hc, vertexLines]
    by_cases he : (vertexLabels v no states).isEmpty
    · simp [he]
    · simp [he]

/-- Witness for C6 at a concrete annotated vertex. -/
theorem c6_state_color_witness :
    vertexColor 0 [(0, ⟨[("A", (5, 8))]⟩)] = " [color=red]" ∧
    stateLabel ⟨[("A", (5, 8))]⟩
      ∈ vertexLabels ⟨[], []⟩ 0 [(0, ⟨[("A", (5, 8))]⟩)] ∧
    vertexLines "X" (vertexLabels ⟨[], []⟩ 0 [(0, ⟨[("A", (5, 8))]⟩)])
        (vertexColor 0 [(0, ⟨[("A", (5, 8))]⟩)])
      = [labelLine "X" (vertexLabels ⟨[], []⟩ 0 [(0, ⟨[("A", (5, 8))]⟩)])
          ++ " [color=red]"] :=
  (c6_state_color 0 "X" ⟨[], []⟩ [(0, ⟨[("A", (5, 8))]⟩)]).1
    0 ⟨[("A", (5, 8))]⟩ rfl

/-- C7: the rendering is deterministic: equal vertex lists, graph names and
state annotations produce character-for-character identical dot text. -/
theorem c7_deterministic (v1 v2 : List Vertex) (n1 n2 : String)
    (s1 s2 : List (Nat × Vartable)) (hv : v1 = v2) (hn : n1 = n2)
    (hs : s1 = s2) : graphvizLines v1 n1 s1 = graphvizLines v2 n2 s2 := by
  subst hv
  subst hn
  subst hs
  rfl

/-- Witness for C7 at concrete equal inputs. -/
theorem c7_deterministic_witness :
    graphvizLines [] "nfa" [] = graphvizLines [] "nfa" [] :=
  c7_deterministic [] [] "nfa" "nfa" [] [] rfl rfl rfl

/-- `no_to_name` never produces the empty character list. -/
theorem no_to_name_data_ne (n : Nat) : (no_to_name n).data ≠ [] := by
  rw [no_to_name]
  split
  · simp [str_data_mk]
  · simp [str_data_append, str_data_mk]

/-- Every base-26 digit character is an uppercase letter. -/
theorem az_digit : ∀ r : Nat, r < 26 → Char.ofNat (65 + r) ∈ upperAZ.data := by
  decide

/-- Every character `no_to_name` produces is an uppercase letter. -/
theorem no_to_name_chars (n : Nat) :
    ∀ c ∈ (no_to_name n).data, c ∈ upperAZ.data := by
  induction n using Nat.strong_induction_on with
  | _ n ih =>
    rw [no_to_name]
    split
    · intro c hc
      simp only [str_data_mk, List.mem_singleton] at hc
      subst hc
      exact az_digit _ (Nat.mod_lt _ (by omega))
    · intro c hc
      rw [str_data_append] at hc
      rcases List.mem_append.mp hc with h1 | h2
      · have hne : n ≠ 0 := by
          intro h0
          subst h0
          simp_all
        exact ih (n / 26) (Nat.div_lt_self (Nat.pos_of_ne_zero hne) (by omega)) c h1
      · simp only [str_data_mk, List.mem_singleton] at h2
        subst h2
        exact az_digit _ (Nat.mod_lt _ (by omega))

/-- For positions below 26 the identifier is the single digit character. -/
theorem no_to_name_small (n : Nat) (h : n < 26) :
    no_to_name n = String.mk [Char.ofNat (65 + n)] := by
  rw [no_to_name, Nat.div_eq_of_lt h, Nat.mod_eq_of_lt h]
  simp

/-- C10: `no_to_name` is total (it is a terminating function of `Nat`) and
returns a non-empty string of characters drawn from A..Z; below 26 it is the
single character of code 65 + n (that is, the code of A plus n). -/
theorem c10_no_to_name_total (n : Nat) :
    no_to_name n ≠ "" ∧
    (∀ c ∈ (no_to_name n).data, c ∈ upperAZ.data) ∧
    (n < 26 → no_to_name n = String.mk [Char.ofNat (65 + n)]) := by
  refine ⟨?_, no_to_name_chars n, no_to_name_small n⟩
  intro he
  exact no_to_name_data_ne n (by simp [he])

/-- Witness for C10 at position 3: the identifier is the single letter of
code 68. -/
theorem c10_no_to_name_total_witness :
    no_to_name 3 ≠ "" ∧ no_to_name 3 = String.mk [Char.ofNat (65 + 3)] :=
  ⟨(c10_no_to_name_total 3).1, (c10_no_to_name_total 3).2.2 (by omega)⟩

end IrSpec
